import Mathlib

/-!
Verification of the MCP broker/relay server (`src/python/mcp_server.py`) and
its convenience client (`src/python/mcp_client.py`).

The development is a shallow embedding: the server's per-message processing,
command dispatch, authentication, token bootstrap and cache sweep are
translated into pure Lean functions over an explicit server state.  Sockets
are abstracted to connection identifiers; a send to a connection becomes an
entry in an output list; the wall clock becomes an explicit `Nat` parameter;
strings produced by `uuid.uuid4()` / `datetime.now().isoformat()` become
explicit parameters.  Locks are erased: each Python critical section becomes
an atomic pure state transition (lock-level interleavings and deadlocks are
outside the model).  Messages are modelled after `json.loads`: a decoded
JSON object is an association list of string keys to JSON values.
-/

/-- A decoded JSON value (the result of Python's `json.loads`).  Numbers are
modelled as integers; no behaviour verified here inspects non-integral
numbers. -/
inductive Jval where
  | jnull
  | jbool (b : Bool)
  | jint (n : Int)
  | jstr (s : String)
  | jarr (elems : List Jval)
  | jobj (fields : List (String × Jval))
deriving Repr

/-- A decoded JSON object: key/value pairs in insertion order, keys unique
(Python dict). -/
abbrev Jobj := List (String × Jval)

mutual

/-- Structural equality of JSON values (Python `==` on decoded values). -/
def Jval.beq : Jval → Jval → Bool
  | .jnull, .jnull => true
  | .jbool a, .jbool b => a == b
  | .jint a, .jint b => a == b
  | .jstr a, .jstr b => a == b
  | .jarr xs, .jarr ys => Jval.beqList xs ys
  | .jobj xs, .jobj ys => Jval.beqFields xs ys
  | _, _ => false

def Jval.beqList : List Jval → List Jval → Bool
  | [], [] => true
  | x :: xs, y :: ys => Jval.beq x y && Jval.beqList xs ys
  | _, _ => false

def Jval.beqFields : List (String × Jval) → List (String × Jval) → Bool
  | [], [] => true
  | (k1, v1) :: xs, (k2, v2) :: ys =>
      k1 == k2 && Jval.beq v1 v2 && Jval.beqFields xs ys
  | _, _ => false

end

instance : BEq Jval := ⟨Jval.beq⟩

mutual

theorem Jval.eq_of_beq : {a b : Jval} → Jval.beq a b = true → a = b
  | .jnull, .jnull, _ => rfl
  | .jbool _, .jbool _, h => by
      simp only [Jval.beq, beq_iff_eq] at h; rw [h]
  | .jint _, .jint _, h => by
      simp only [Jval.beq, beq_iff_eq] at h; rw [h]
  | .jstr _, .jstr _, h => by
      simp only [Jval.beq, beq_iff_eq] at h; rw [h]
  | .jarr xs, .jarr ys, h => by
      rw [@Jval.eq_of_beqList xs ys h]
  | .jobj xs, .jobj ys, h => by
      rw [@Jval.eq_of_beqFields xs ys h]
  | .jnull, .jbool _, h => nomatch h
  | .jnull, .jint _, h => nomatch h
  | .jnull, .jstr _, h => nomatch h
  | .jnull, .jarr _, h => nomatch h
  | .jnull, .jobj _, h => nomatch h
  | .jbool _, .jnull, h => nomatch h
  | .jbool _, .jint _, h => nomatch h
  | .jbool _, .jstr _, h => nomatch h
  | .jbool _, .jarr _, h => nomatch h
  | .jbool _, .jobj _, h => nomatch h
  | .jint _, .jnull, h => nomatch h
  | .jint _, .jbool _, h => nomatch h
  | .jint _, .jstr _, h => nomatch h
  | .jint _, .jarr _, h => nomatch h
  | .jint _, .jobj _, h => nomatch h
  | .jstr _, .jnull, h => nomatch h
  | .jstr _, .jbool _, h => nomatch h
  | .jstr _, .jint _, h => nomatch h
  | .jstr _, .jarr _, h => nomatch h
  | .jstr _, .jobj _, h => nomatch h
  | .jarr _, .jnull, h => nomatch h
  | .jarr _, .jbool _, h => nomatch h
  | .jarr _, .jint _, h => nomatch h
  | .jarr _, .jstr _, h => nomatch h
  | .jarr _, .jobj _, h => nomatch h
  | .jobj _, .jnull, h => nomatch h
  | .jobj _, .jbool _, h => nomatch h
  | .jobj _, .jint _, h => nomatch h
  | .jobj _, .jstr _, h => nomatch h
  | .jobj _, .jarr _, h => nomatch h

theorem Jval.eq_of_beqList : {xs ys : List Jval} → Jval.beqList xs ys = true → xs = ys
  | [], [], _ => rfl
  | [], _ :: _, h => nomatch h
  | _ :: _, [], h => nomatch h
  | x :: xs, y :: ys, h => by
      simp only [Jval.beqList, Bool.and_eq_true] at h
      rw [@Jval.eq_of_beq x y h.1, @Jval.eq_of_beqList xs ys h.2]

theorem Jval.eq_of_beqFields :
    {xs ys : List (String × Jval)} → Jval.beqFields xs ys = true → xs = ys
  | [], [], _ => rfl
  | [], _ :: _, h => nomatch h
  | _ :: _, [], h => nomatch h
  | (k1, v1) :: xs, (k2, v2) :: ys, h => by
      simp only [Jval.beqFields, Bool.and_eq_true, beq_iff_eq] at h
      rw [h.1.1, @Jval.eq_of_beq v1 v2 h.1.2, @Jval.eq_of_beqFields xs ys h.2]

end

mutual

theorem Jval.beq_refl : (a : Jval) → Jval.beq a a = true
  | .jnull => rfl
  | .jbool b => by simp [Jval.beq]
  | .jint n => by simp [Jval.beq]
  | .jstr s => by simp [Jval.beq]
  | .jarr xs => Jval.beqList_refl xs
  | .jobj xs => Jval.beqFields_refl xs

theorem Jval.beqList_refl : (xs : List Jval) → Jval.beqList xs xs = true
  | [] => rfl
  | x :: xs => by
      simp only [Jval.beqList, Bool.and_eq_true]
      exact ⟨Jval.beq_refl x, Jval.beqList_refl xs⟩

theorem Jval.beqFields_refl : (xs : List (String × Jval)) → Jval.beqFields xs xs = true
  | [] => rfl
  | (k, v) :: xs => by
      simp only [Jval.beqFields, Bool.and_eq_true]
      exact ⟨⟨LawfulBEq.rfl, Jval.beq_refl v⟩, Jval.beqFields_refl xs⟩

end

instance : LawfulBEq Jval where
  eq_of_beq := Jval.eq_of_beq
  rfl := Jval.beq_refl _

instance : DecidableEq Jval := fun a b =>
  if h : Jval.beq a b = true then .isTrue (Jval.eq_of_beq h)
  else .isFalse (fun he => h (he ▸ Jval.beq_refl a))

/-- `o.get(k)` / `k in o` on a decoded JSON object. -/
def jget (o : Jobj) (k : String) : Option Jval := o.lookup k

/-- An apostrophe, kept out of string literals. -/
def apos : String := String.singleton (Char.ofNat 39)

mutual

/-- Python `repr` of a decoded JSON value, used when values are interpolated
into reply text. -/
def Jval.pyRepr : Jval → String
  | .jnull => "None"
  | .jbool true => "True"
  | .jbool false => "False"
  | .jint n => toString n
  | .jstr s => apos ++ s ++ apos
  | .jarr xs => "[" ++ Jval.pyReprList xs ++ "]"
  | .jobj fs => "\x7b" ++ Jval.pyReprFields fs ++ "\x7d"

def Jval.pyReprList : List Jval → String
  | [] => ""
  | [x] => Jval.pyRepr x
  | x :: y :: xs => Jval.pyRepr x ++ ", " ++ Jval.pyReprList (y :: xs)

def Jval.pyReprFields : List (String × Jval) → String
  | [] => ""
  | [(k, v)] => apos ++ k ++ apos ++ ": " ++ Jval.pyRepr v
  | (k, v) :: y :: xs =>
      apos ++ k ++ apos ++ ": " ++ Jval.pyRepr v ++ ", " ++ Jval.pyReprFields (y :: xs)

end

/-- Python `str` of a decoded JSON value (as an f-string interpolates it). -/
def Jval.pyStr : Jval → String
  | .jstr s => s
  | v => v.pyRepr

/-! ### Server data model (`MCPServer.__init__` and per-connection state) -/

/-- One entry of `self.clients`: what `_handle_client` stores for a live
connection (the raw socket is abstracted to the connection id itself). -/
structure ClientInfo where
  ctype : String
  authenticated : Bool
  last_activity : Nat
deriving Repr, DecidableEq

/-- One entry of `self.auth_tokens` (`_load_auth_tokens`). -/
structure TokenInfo where
  permissions : List String
  created_at : String
deriving Repr, DecidableEq

/-- One entry of `self.command_queue` (`_process_message`, command branch). -/
structure QueuedCommand where
  client_id : String
  command : Jval
  parameters : Jval
  request_id : Jval
  timestamp : Nat
deriving Repr, DecidableEq

/-- One entry of `self.response_cache`. -/
structure CacheEntry where
  data : Jobj
  timestamp : Nat
deriving Repr, DecidableEq

/-- `self.response_cache`: keys are the values taken from `responseToId`. -/
abbrev Cache := List (Jval × CacheEntry)

/-- The mutable state of `MCPServer`.  `closedSockets` records which
connections' transport handles have been closed (`socket.close()`); a
`sendall` on such a handle raises. -/
structure ServerState where
  auth_enabled : Bool
  clients : List (String × ClientInfo)
  mt5_connection : Option String
  command_queue : List QueuedCommand
  response_cache : Cache
  auth_tokens : List (String × TokenInfo)
  closedSockets : List String
deriving Repr, DecidableEq

/-! ### Dictionary operations (Python dict semantics on association lists) -/

/-- Python `d[k] = v`: overwrite in place when the key exists, else append. -/
def dictSet {α : Type} [BEq α] {β : Type} (d : List (α × β)) (k : α) (v : β) :
    List (α × β) :=
  if d.any (fun e => e.1 == k) then d.map (fun e => if e.1 == k then (k, v) else e)
  else d ++ [(k, v)]

/-- Python `del d[k]`. -/
def dictDel {α : Type} [BEq α] {β : Type} (d : List (α × β)) (k : α) :
    List (α × β) :=
  d.filter (fun e => !(e.1 == k))

/-- Apply `f` to the entry stored under `cid` (e.g.
`self.clients[client_id]['type'] = ...`). -/
def updateClient (cs : List (String × ClientInfo)) (cid : String)
    (f : ClientInfo → ClientInfo) : List (String × ClientInfo) :=
  cs.map (fun p => if p.1 == cid then (p.1, f p.2) else p)

/-! ### Reply payloads built by the server -/

/-- Reply to `{"identity": "MT5_EA"}`. -/
def connectedAck (serverTimeIso : String) : Jobj :=
  [("status", .jstr "connected"), ("server_time", .jstr serverTimeIso)]

/-- Reply on successful authentication. -/
def authSuccessMsg : Jobj :=
  [("status", .jstr "authenticated"), ("message", .jstr "Authentication successful")]

/-- Reply on failed authentication. -/
def authFailedMsg : Jobj :=
  [("status", .jstr "error"), ("message", .jstr "Authentication failed")]

/-- Reply to an unauthenticated command attempt. -/
def notAuthMsg : Jobj :=
  [("status", .jstr "error"), ("message", .jstr "Not authenticated")]

/-- Immediate acknowledgment after enqueuing a command. -/
def queuedAck (request_id : Jval) (command : Jval) : Jobj :=
  [("status", .jstr "queued"), ("requestId", request_id),
   ("message", .jstr ("Command " ++ apos ++ command.pyStr ++ apos ++ " queued for processing"))]

/-- Error sent by `_execute_command` when `self.mt5_connection` is `None`. -/
def upstreamAbsentError (request_id : Jval) : Jobj :=
  [("status", .jstr "error"), ("requestId", request_id),
   ("message", .jstr "MetaTrader EA not connected")]

/-- Error sent by `_execute_command` when the 30 s deadline elapses. -/
def timeoutReply (request_id : Jval) : Jobj :=
  [("status", .jstr "error"), ("requestId", request_id),
   ("message", .jstr "Timeout waiting for response from MetaTrader")]

/-- Error sent by `_execute_command`'s exception handler (`excText` is the
text of the raised exception). -/
def execErrorReply (request_id : Jval) (excText : String) : Jobj :=
  [("status", .jstr "error"), ("requestId", request_id),
   ("message", .jstr ("Error executing command: " ++ excText))]

/-- The envelope `_execute_command` forwards to the MT5 EA. -/
def mt5Envelope (item : QueuedCommand) (nowIso : String) : Jobj :=
  [("command", item.command), ("parameters", item.parameters),
   ("requestId", item.request_id), ("timestamp", .jstr nowIso)]

/-! ### Server operations -/

/-- `MCPServer._send_to_client`: the message is delivered iff the target is
still in the registry (otherwise the attempt is dropped). -/
def sendTo (st : ServerState) (cid : String) (msg : Jobj) : List (String × Jobj) :=
  if (st.clients.lookup cid).isSome then [(cid, msg)] else []

/-- `MCPServer._is_client_authenticated`. -/
def isClientAuthenticated (st : ServerState) (cid : String) : Bool :=
  if !st.auth_enabled then true
  else
    match st.clients.lookup cid with
    | some c => c.authenticated
    | none => false

/-- `MCPServer._authenticate_client`.  Only hashable token values are
modelled (an unhashable value would raise inside the dict lookup in Python;
no claim involves one). -/
def authenticateClient (st : ServerState) (cid : String) (token : Jval) :
    Bool × ServerState :=
  if !st.auth_enabled then (true, st)
  else
    match token with
    | .jstr t =>
        if (st.auth_tokens.lookup t).isSome then
          match st.clients.lookup cid with
          | some _ =>
              let cs := updateClient st.clients cid (fun c => { c with authenticated := true })
              (true, { st with clients := cs })
          | none => (false, st)
        else (false, st)
    | _ => (false, st)

/-- `MCPServer._get_client_type`. -/
def getClientType (st : ServerState) (cid : String) : String :=
  match st.clients.lookup cid with
  | some c => c.ctype
  | none => "unknown"

/-- The command block of `_process_message` (reached once the sender passed
the authentication check). -/
def processCommand (st : ServerState) (cid : String) (data : Jobj)
    (genId : String) (now : Nat) : ServerState × List (String × Jobj) :=
  match jget data "command" with
  | none => (st, [])
  | some cmd =>
      let request_id := (jget data "requestId").getD (.jstr genId)
      let parameters := (jget data "parameters").getD (.jobj [])
      if getClientType st cid == "mt5_ea" then
        match jget data "responseToId" with
        | some rto =>
            ({ st with response_cache :=
                dictSet st.response_cache rto { data := data, timestamp := now } }, [])
        | none => (st, [])
      else
        let st1 := { st with command_queue := st.command_queue ++
          [{ client_id := cid, command := cmd, parameters := parameters,
             request_id := request_id, timestamp := now }] }
        (st1, sendTo st1 cid (queuedAck request_id cmd))

/-- `MCPServer._process_message` on a decoded JSON object.  `genId` stands
for the `uuid.uuid4()` drawn when the message has no `requestId`;
`serverTimeIso` for `datetime.now().isoformat()`; `now` for `time.time()`.
Malformed (non-decodable) input is outside the domain of this function. -/
def processMessage (st : ServerState) (cid : String) (data : Jobj)
    (genId : String) (serverTimeIso : String) (now : Nat) :
    ServerState × List (String × Jobj) :=
  if jget data "identity" == some (.jstr "MT5_EA")
      && (st.clients.lookup cid).isSome then
    let st1 := { st with
      clients := updateClient st.clients cid (fun c => { c with ctype := "mt5_ea" }),
      mt5_connection := some cid }
    (st1, sendTo st1 cid (connectedAck serverTimeIso))
  else if (jget data "auth").isSome && !(isClientAuthenticated st cid) then
    let r := authenticateClient st cid ((jget data "auth").getD .jnull)
    if r.1 then (r.2, sendTo r.2 cid authSuccessMsg)
    else (r.2, sendTo r.2 cid authFailedMsg)
  else if !(isClientAuthenticated st cid) then
    (st, sendTo st cid notAuthMsg)
  else
    processCommand st cid data genId now


/-! ### Connection teardown, dispatcher and sweep -/

/-- The `finally` block of `MCPServer._handle_client` (disconnect, idle
timeout or read error): close the transport and drop the registry entry.
As in the source, `mt5_connection` is left untouched even when the torn-down
connection is the current upstream link. -/
def handleClientTeardown (st : ServerState) (cid : String) : ServerState :=
  { st with
    closedSockets := cid :: st.closedSockets,
    clients := st.clients.filter (fun p => !(p.1 == cid)) }

/-- `sendall` on the upstream socket raises iff that transport handle has
been closed. -/
def upstreamSendFails (st : ServerState) : Bool :=
  match st.mt5_connection with
  | some s => st.closedSockets.contains s
  | none => false

/-- Outcome of the 100 ms polling loop in `_execute_command`.  The loop is
driven by the snapshots of `self.response_cache` it observes, one per poll;
the list of snapshots ends when the 30 s deadline elapses. -/
inductive WaitResult where
  | found (payload : Jobj) (cacheAfter : Cache) (pollIndex : Nat)
  | deadline
deriving Repr, DecidableEq

/-- The polling loop of `_execute_command`: at each poll, an atomic
check-and-remove of `request_id` from the observed cache snapshot. -/
def waitForReply (rid : Jval) : List Cache → Nat → WaitResult
  | [], _ => .deadline
  | c :: rest, n =>
      match c.lookup rid with
      | some e => .found e.data (dictDel c rid) n
      | none => waitForReply rid rest (n + 1)

/-- What one `_execute_command` call did: messages handed to
`_send_to_client` and delivered, envelopes written to the upstream socket,
number of polls consumed, and the cache snapshot after the correlated entry
was removed (when one was found). -/
structure ExecResult where
  sends : List (String × Jobj)
  upstreamWrites : List Jobj
  pollsUsed : Nat
  cacheAfter : Option Cache
deriving Repr, DecidableEq

/-- `MCPServer._execute_command`.  `polls` are the cache snapshots the
waiting loop observes before the 30 s deadline; `nowIso` is
`datetime.now().isoformat()`; `excText` the text of the exception raised by
a failing `sendall`. -/
def executeCommand (st : ServerState) (item : QueuedCommand)
    (polls : List Cache) (nowIso : String) (excText : String) : ExecResult :=
  match st.mt5_connection with
  | none =>
      { sends := sendTo st item.client_id (upstreamAbsentError item.request_id),
        upstreamWrites := [], pollsUsed := 0, cacheAfter := none }
  | some _ =>
      if upstreamSendFails st then
        { sends := sendTo st item.client_id (execErrorReply item.request_id excText),
          upstreamWrites := [], pollsUsed := 0, cacheAfter := none }
      else
        match waitForReply item.request_id polls 0 with
        | .found payload c n =>
            { sends := sendTo st item.client_id payload,
              upstreamWrites := [mt5Envelope item nowIso],
              pollsUsed := n + 1, cacheAfter := some c }
        | .deadline =>
            { sends := sendTo st item.client_id (timeoutReply item.request_id),
              upstreamWrites := [mt5Envelope item nowIso],
              pollsUsed := polls.length, cacheAfter := none }

/-- One iteration of `MCPServer._process_command_queue`: pop the head of the
FIFO (under the queue lock), then run `_execute_command` to completion
before the next command is considered. -/
def processQueueStep (st : ServerState) (polls : List Cache)
    (nowIso : String) (excText : String) : ServerState × Option ExecResult :=
  match st.command_queue with
  | [] => (st, none)
  | item :: rest =>
      let st1 := { st with command_queue := rest }
      (st1, some (executeCommand st1 item polls nowIso excText))

/-- The eviction horizon of the response cache (seconds). -/
def cacheExpirySeconds : Nat := 600

/-- `MCPServer._clean_expired_cache`: collect the keys of the entries older
than the horizon, then delete each collected key. -/
def cleanExpiredCache (now : Nat) (c : Cache) : Cache :=
  let expired_keys :=
    (c.filter (fun e => cacheExpirySeconds < now - e.2.timestamp)).map (fun e => e.1)
  expired_keys.foldl (fun acc k => dictDel acc k) c

/-! ### Auth-token bootstrap (`MCPServer._load_auth_tokens`) -/

/-- The external configuration collaborator (`mcp_config.ini`): the file may
be absent, or present with or without an `AUTH_TOKENS` section holding
token to comma-separated-permissions entries. -/
inductive AuthConfig where
  | absent
  | present (authSection : Option (List (String × String)))
deriving Repr, DecidableEq

/-- `MCPServer._load_auth_tokens`: read tokens from the configuration when
the file exists; otherwise generate one default token (`genTok` stands for
the drawn `uuid.uuid4()`) with the `all` permission and persist it back.
Returns the loaded store and the configuration as persisted afterwards. -/
def loadAuthTokens (cfg : AuthConfig) (genTok : String) (nowIso : String) :
    List (String × TokenInfo) × AuthConfig :=
  match cfg with
  | .present s =>
      ((s.getD []).map
        (fun p => (p.1, { permissions := p.2.splitOn ",", created_at := nowIso })),
       .present s)
  | .absent =>
      ([(genTok, { permissions := ["all"], created_at := nowIso })],
       .present (some [(genTok, "all")]))

/-! ### Client model (`src/python/mcp_client.py`) -/

/-- A registered response callback of `MCPClient`: the private
`_sync_response_callback`, or a user-supplied callback (opaque here; user
callbacks do not touch the client's response state). -/
inductive CB where
  | sync
  | user (id : Nat)
deriving Repr, DecidableEq

/-- The response-handling state of `MCPClient`: `self.callbacks`,
`self.last_response` and `self.response_event`. -/
structure ClientState where
  callbacks : List (String × CB)
  last_response : Option Jobj
  event_set : Bool
deriving Repr, DecidableEq

/-- Python truthiness of a decoded JSON value (`if request_id:`). -/
def truthy : Jval → Bool
  | .jnull => false
  | .jbool b => b
  | .jint n => n != 0
  | .jstr s => !(s == "")
  | .jarr xs => !xs.isEmpty
  | .jobj fs => !fs.isEmpty

/-- `MCPClient._process_response` on one decoded server message: look up the
callback registered under the message's `requestId`, drop it when it is a
one-time (non-sync) callback, and run it.  Running the sync callback stores
the message in `last_response` and sets the event; user callbacks (and the
optional default callback) do not touch this state. -/
def processResponse (cs : ClientState) (msg : Jobj) : ClientState :=
  match jget msg "requestId" with
  | none => cs
  | some v =>
      if truthy v then
        match v with
        | .jstr s =>
            match cs.callbacks.lookup s with
            | some CB.sync =>
                { cs with last_response := some msg, event_set := true }
            | some (CB.user _) =>
                { cs with callbacks := dictDel cs.callbacks s }
            | none => cs
        | _ => cs
      else cs

/-- The synchronous wait of `MCPClient.send_command`: process incoming
messages in arrival order until the response event is set; `none` when the
stream ends with the event still clear (the client-side timeout). -/
def runUntilEvent (cs : ClientState) : List Jobj → Option Jobj
  | [] => none
  | m :: ms =>
      let cs1 := processResponse cs m
      if cs1.event_set then cs1.last_response else runUntilEvent cs1 ms

/-- `MCPClient.send_command` with no callback supplied (the synchronous
path): clear the event and `last_response`, register the sync callback
under the freshly generated `request_id`, send, then wait.  `msgs` are the
server messages received after the send. -/
def sendCommandSync (cs0 : ClientState) (rid : String) (msgs : List Jobj) :
    Option Jobj :=
  runUntilEvent
    { callbacks := dictSet cs0.callbacks rid CB.sync,
      last_response := none, event_set := false } msgs

/-- Does a server message carry `requestId` equal to the given string? -/
def matchesRid (rid : String) (m : Jobj) : Bool :=
  jget m "requestId" == some (.jstr rid)
section DictLemmas

variable {α β : Type} [BEq α] [LawfulBEq α]

theorem lookup_map_overwrite (d : List (α × β)) (k : α) (v : β)
    (h : d.any (fun e => e.1 == k) = true) :
    (d.map (fun e => if e.1 == k then (k, v) else e)).lookup k = some v := by
  induction d with
  | nil => simp at h
  | cons e es ih =>
      obtain ⟨a, b⟩ := e
      simp only [List.any_cons, Bool.or_eq_true] at h
      by_cases he : (a == k) = true
      · rw [List.map_cons, if_pos he]
        simp [List.lookup]
      · have hne : ¬ a = k := by simpa using he
        have hk : (k == a) = false := by
          simp only [beq_eq_false_iff_ne]
          exact fun hkk => hne hkk.symm
        rw [List.map_cons, if_neg he]
        simp only [List.lookup, hk]
        exact ih (h.resolve_left he)

theorem lookup_append_new (d : List (α × β)) (k : α) (v : β)
    (h : d.any (fun e => e.1 == k) = false) :
    (d ++ [(k, v)]).lookup k = some v := by
  induction d with
  | nil => simp [List.lookup]
  | cons e es ih =>
      obtain ⟨a, b⟩ := e
      simp only [List.any_cons, Bool.or_eq_false_iff] at h
      have hne : ¬ a = k := by simpa using h.1
      have hk : (k == a) = false := by
        simp only [beq_eq_false_iff_ne]
        exact fun hkk => hne hkk.symm
      simp only [List.cons_append, List.lookup, hk]
      exact ih h.2

/-- Looking up the key just written by a Python dict assignment. -/
theorem dictSet_lookup_self (d : List (α × β)) (k : α) (v : β) :
    (dictSet d k v).lookup k = some v := by
  unfold dictSet
  by_cases h : d.any (fun e => e.1 == k) = true
  · rw [if_pos h]; exact lookup_map_overwrite d k v h
  · rw [if_neg h]; exact lookup_append_new d k v ((Bool.not_eq_true _).mp h)

end DictLemmas
theorem beq_symm_false {α : Type} [BEq α] [LawfulBEq α] {a b : α}
    (h : (a == b) = false) : (b == a) = false := by
  simp only [beq_eq_false_iff_ne] at h ⊢
  exact fun hk => h hk.symm

/-- `List.lookup` on a cons cell, in rewrite-friendly form. -/
theorem lookupCons {α β : Type} [BEq α] (k a : α) (b : β) (es : List (α × β)) :
    List.lookup k ((a, b) :: es) = bif k == a then some b else es.lookup k := rfl

section DictLemmas2

variable {α β : Type} [BEq α] [LawfulBEq α]

theorem dictSet_cons (a : α) (b : β) (es : List (α × β)) (k : α) (v : β) :
    dictSet ((a, b) :: es) k v =
      (if (a == k) = true then (k, v) else (a, b)) ::
        (if (a == k) = true then es.map (fun e => if e.1 == k then (k, v) else e)
         else dictSet es k v) := by
  by_cases he : (a == k) = true
  · simp [dictSet, List.any_cons, he]
  · have he' : (a == k) = false := by simpa using he
    rw [if_neg he, if_neg he]
    unfold dictSet
    rw [List.any_cons, he', Bool.false_or]
    by_cases hh : es.any (fun e => e.1 == k) = true
    · rw [if_pos hh, if_pos hh, List.map_cons, if_neg he]
    · rw [if_neg hh, if_neg hh, List.cons_append]

theorem dictSet_lookup_ne (v : β) {k k2 : α} (h : k2 ≠ k) :
    ∀ d : List (α × β), (dictSet d k v).lookup k2 = d.lookup k2 := by
  have hk : (k2 == k) = false := beq_false_of_ne h
  intro d
  induction d with
  | nil =>
      unfold dictSet
      simp [List.lookup, hk]
  | cons e es ih =>
      obtain ⟨a, b⟩ := e
      rw [dictSet_cons]
      by_cases he : (a == k) = true
      · have ha : a = k := eq_of_beq he
        rw [if_pos he, if_pos he, lookupCons, hk, Bool.cond_false,
          lookupCons, ha, hk, Bool.cond_false]
        have hmap : dictSet es k v = es.map (fun e => if e.1 == k then (k, v) else e)
            ∨ (es.map (fun e => if e.1 == k then (k, v) else e)).lookup k2
                = es.lookup k2 := by
          by_cases hh : es.any (fun e => e.1 == k) = true
          · exact Or.inl (by unfold dictSet; rw [if_pos hh])
          · refine Or.inr ?_
            clear ih
            induction es with
            | nil => rfl
            | cons e2 es2 ih2 =>
                obtain ⟨a2, b2⟩ := e2
                simp only [List.any_cons, Bool.or_eq_true, not_or] at hh
                have ha2 : (a2 == k) = false := by simpa using hh.1
                rw [List.map_cons, if_neg (by simp [ha2]), lookupCons, lookupCons]
                cases hke : (k2 == a2) with
                | true => rfl
                | false =>
                    simp only [Bool.cond_false]
                    exact ih2 (by simpa using hh.2)
        rcases hmap with hm | hm
        · rw [← hm]; exact ih
        · exact hm
      · rw [if_neg he, if_neg he, lookupCons, lookupCons]
        cases hke : (k2 == a) with
        | true => rfl
        | false =>
            simp only [Bool.cond_false]
            exact ih

theorem dictDel_cons (a : α) (b : β) (es : List (α × β)) (k : α) :
    dictDel ((a, b) :: es) k =
      if (a == k) = true then dictDel es k else (a, b) :: dictDel es k := by
  by_cases he : (a == k) = true
  · simp [dictDel, List.filter_cons, he]
  · have he' : (a == k) = false := by simpa using he
    simp [dictDel, List.filter_cons, he']

theorem dictDel_lookup_ne {k k2 : α} (h : k2 ≠ k) :
    ∀ d : List (α × β), (dictDel d k).lookup k2 = d.lookup k2 := by
  intro d
  induction d with
  | nil => rfl
  | cons e es ih =>
      obtain ⟨a, b⟩ := e
      rw [dictDel_cons]
      by_cases he : (a == k) = true
      · have ha : a = k := eq_of_beq he
        have hke : (k2 == a) = false := beq_false_of_ne (ha ▸ h)
        rw [if_pos he, lookupCons, hke, Bool.cond_false]
        exact ih
      · rw [if_neg he, lookupCons, lookupCons]
        cases hke : (k2 == a) with
        | true => rfl
        | false =>
            simp only [Bool.cond_false]
            exact ih

theorem dictDel_lookup_self (k : α) :
    ∀ d : List (α × β), (dictDel d k).lookup k = none := by
  intro d
  induction d with
  | nil => rfl
  | cons e es ih =>
      obtain ⟨a, b⟩ := e
      rw [dictDel_cons]
      by_cases he : (a == k) = true
      · rw [if_pos he]; exact ih
      · have he' : (a == k) = false := by simpa using he
        have hke : (k == a) = false := beq_symm_false he'
        rw [if_neg he, lookupCons, hke, Bool.cond_false]
        exact ih

end DictLemmas2

theorem updateClient_cons (a : String) (b : ClientInfo) (es : List (String × ClientInfo))
    (cid : String) (f : ClientInfo → ClientInfo) :
    updateClient ((a, b) :: es) cid f =
      (if (a == cid) = true then (a, f b) else (a, b)) :: updateClient es cid f := rfl

theorem updateClient_lookup (cid : String) (f : ClientInfo → ClientInfo) :
    ∀ cs : List (String × ClientInfo),
      (updateClient cs cid f).lookup cid = (cs.lookup cid).map f := by
  intro cs
  induction cs with
  | nil => rfl
  | cons e es ih =>
      obtain ⟨a, b⟩ := e
      rw [updateClient_cons]
      by_cases he : (a == cid) = true
      · have ha : a = cid := eq_of_beq he
        subst ha
        rw [if_pos he, lookupCons, lookupCons, LawfulBEq.rfl, Bool.cond_true,
          Bool.cond_true]
        rfl
      · have he' : (a == cid) = false := by simpa using he
        have hke : (cid == a) = false := beq_symm_false he'
        rw [if_neg he, lookupCons, lookupCons, hke, Bool.cond_false, Bool.cond_false]
        exact ih

theorem updateClient_lookup_ne {cid k : String} (f : ClientInfo → ClientInfo)
    (h : k ≠ cid) :
    ∀ cs : List (String × ClientInfo),
      (updateClient cs cid f).lookup k = cs.lookup k := by
  intro cs
  induction cs with
  | nil => rfl
  | cons e es ih =>
      obtain ⟨a, b⟩ := e
      rw [updateClient_cons]
      by_cases he : (a == cid) = true
      · have ha : a = cid := eq_of_beq he
        have hke : (k == a) = false := beq_false_of_ne (ha ▸ h)
        rw [if_pos he, lookupCons, lookupCons, hke, Bool.cond_false, Bool.cond_false]
        exact ih
      · rw [if_neg he, lookupCons, lookupCons]
        cases hke : (k == a) with
        | true => rfl
        | false =>
            simp only [Bool.cond_false]
            exact ih
theorem waitForReply_deadline (rid : Jval) :
    ∀ (polls : List Cache) (n : Nat), (∀ c ∈ polls, c.lookup rid = none) →
      waitForReply rid polls n = .deadline := by
  intro polls
  induction polls with
  | nil => intro n _; rfl
  | cons c rest ih =>
      intro n h
      have hc : c.lookup rid = none := h c (List.mem_cons_self c rest)
      simp only [waitForReply, hc]
      exact ih (n + 1) (fun c2 hc2 => h c2 (List.mem_cons_of_mem c hc2))

theorem waitForReply_found (rid : Jval) (c : Cache) (rest : List Cache) (n : Nat)
    (e : CacheEntry) (h : c.lookup rid = some e) :
    waitForReply rid (c :: rest) n = .found e.data (dictDel c rid) n := by
  simp only [waitForReply, h]

theorem foldl_dictDel_eq_filter :
    ∀ (ks : List Jval) (c : Cache),
      ks.foldl (fun acc k => dictDel acc k) c
        = c.filter (fun e => !(ks.any (fun k => e.1 == k))) := by
  intro ks
  induction ks with
  | nil => intro c; simp
  | cons k ks ih =>
      intro c
      show ks.foldl (fun acc k => dictDel acc k) (dictDel c k) = _
      rw [ih (dictDel c k)]
      unfold dictDel
      rw [List.filter_filter]
      apply List.filter_congr
      intro e _
      simp only [List.any_cons, Bool.not_or, Bool.and_comm]

theorem eq_of_fst_eq_of_nodupKeys {α β : Type} :
    ∀ {l : List (α × β)}, (l.map Prod.fst).Nodup →
      ∀ {e e' : α × β}, e ∈ l → e' ∈ l → e.1 = e'.1 → e = e' := by
  intro l
  induction l with
  | nil => intro _ e e' he; cases he
  | cons x xs ih =>
      intro hnd e e' he he' hf
      rw [List.map_cons, List.nodup_cons] at hnd
      rcases List.mem_cons.mp he with rfl | he2
      · rcases List.mem_cons.mp he' with rfl | he2'
        · rfl
        · exact absurd (hf ▸ List.mem_map_of_mem Prod.fst he2') hnd.1
      · rcases List.mem_cons.mp he' with rfl | he2'
        · exact absurd (hf ▸ List.mem_map_of_mem Prod.fst he2) hnd.1
        · exact ih hnd.2 he2 he2' hf

theorem runUntilEvent_eq_find (rid : String) (hrid : rid ≠ "") :
    ∀ (msgs : List Jobj) (cs : ClientState),
      cs.event_set = false →
      cs.callbacks.lookup rid = some CB.sync →
      (∀ k, k ≠ rid → cs.callbacks.lookup k ≠ some CB.sync) →
      runUntilEvent cs msgs = msgs.find? (matchesRid rid) := by
  intro msgs
  induction msgs with
  | nil => intro cs _ _ _; rfl
  | cons m ms ih =>
      intro cs hev hsync hother
      by_cases hm : matchesRid rid m = true
      · have hreq : jget m "requestId" = some (.jstr rid) := eq_of_beq hm
        have htr : truthy (.jstr rid) = true := by
          simp only [truthy, Bool.not_eq_true']
          exact beq_false_of_ne hrid
        have hcs1 : processResponse cs m =
            { cs with last_response := some m, event_set := true } := by
          simp only [processResponse, hreq, htr, if_true, hsync]
        simp only [runUntilEvent, hcs1]
        rw [List.find?_cons_of_pos ms hm]
        simp
      · have hm' : matchesRid rid m = false := by simpa using hm
        rw [List.find?_cons_of_neg ms hm]
        have step : ∀ cs1 : ClientState, processResponse cs m = cs1 →
            cs1.event_set = false →
            cs1.callbacks.lookup rid = some CB.sync →
            (∀ k, k ≠ rid → cs1.callbacks.lookup k ≠ some CB.sync) →
            runUntilEvent cs (m :: ms) = ms.find? (matchesRid rid) := by
          intro cs1 h1 h2 h3 h4
          simp only [runUntilEvent, h1, h2, Bool.false_eq_true, if_false]
          exact ih cs1 h2 h3 h4
        rcases hreq : jget m "requestId" with _ | v
        · exact step cs (by simp only [processResponse, hreq]) hev hsync hother
        · by_cases ht : truthy v = true
          · match v with
            | .jstr s =>
                have hs : s ≠ rid := by
                  intro hsr
                  subst hsr
                  rw [matchesRid, hreq] at hm'
                  simp at hm'
                rcases hlk : cs.callbacks.lookup s with _ | cb
                · exact step cs
                    (by simp only [processResponse, hreq, ht, if_true, hlk]) hev hsync hother
                · match cb with
                  | CB.sync => exact absurd hlk (hother s hs)
                  | CB.user u =>
                      refine step { cs with callbacks := dictDel cs.callbacks s }
                        (by simp only [processResponse, hreq, ht, if_true, hlk]) hev ?_ ?_
                      · rw [dictDel_lookup_ne (fun h => hs h.symm)]
                        exact hsync
                      · intro k hk
                        by_cases hks : k = s
                        · subst hks
                          rw [dictDel_lookup_self]
                          simp
                        · rw [dictDel_lookup_ne hks]
                          exact hother k hk
            | .jnull => exact step cs (by simp only [processResponse, hreq, ht, if_true]) hev hsync hother
            | .jbool b => exact step cs (by simp only [processResponse, hreq, ht, if_true]) hev hsync hother
            | .jint n => exact step cs (by simp only [processResponse, hreq, ht, if_true]) hev hsync hother
            | .jarr xs => exact step cs (by simp only [processResponse, hreq, ht, if_true]) hev hsync hother
            | .jobj fs => exact step cs (by simp only [processResponse, hreq, ht, if_true]) hev hsync hother
          · have ht' : truthy v = false := by simpa using ht
            exact step cs (by simp only [processResponse, hreq, ht', Bool.false_eq_true, if_false]) hev hsync hother

/-! ### Shared helper lemmas about the embedded operations -/

/-- A message from an upstream-classified connection that passes the
authentication check and carries both a `command` field and a
`responseToId` field is cached under the `responseToId` value, and no reply
is sent. -/
theorem processMessage_cachesReply (st : ServerState) (ea : String) (c : ClientInfo)
    (data : Jobj) (rto : Jval) (g iso : String) (now : Nat)
    (hc : st.clients.lookup ea = some c)
    (htype : c.ctype = "mt5_ea")
    (hauth : isClientAuthenticated st ea = true)
    (hid : jget data "identity" ≠ some (.jstr "MT5_EA"))
    (hcmd : (jget data "command").isSome = true)
    (hrto : jget data "responseToId" = some rto) :
    processMessage st ea data g iso now =
      ({ st with response_cache :=
          dictSet st.response_cache rto { data := data, timestamp := now } }, []) := by
  have hid' : (jget data "identity" == some (Jval.jstr "MT5_EA")) = false :=
    beq_false_of_ne hid
  obtain ⟨cmd, hcmd'⟩ := Option.isSome_iff_exists.mp hcmd
  have hgt : (getClientType st ea == "mt5_ea") = true := by
    simp only [getClientType, hc, htype]
    rfl
  unfold processMessage
  rw [hid']
  simp only [Bool.false_and, Bool.false_eq_true, if_false, hauth, Bool.not_true,
    Bool.and_false, if_false]
  unfold processCommand
  rw [hcmd']
  simp only [hgt, if_true]
  rw [hrto]

/-! ### Concrete fixtures used by counterexamples and witnesses -/

/-- A queued command from client `cl` with request identifier `r1`. -/
def itemFix : QueuedCommand :=
  { client_id := "cl", command := .jstr "get_price", parameters := .jobj [],
    request_id := .jstr "r1", timestamp := 0 }

/-- A server (authentication disabled) with a linked upstream `ea`, a
client `cl` and the command `r1` pending. -/
def stFix : ServerState :=
  { auth_enabled := false,
    clients := [("ea", { ctype := "mt5_ea", authenticated := false, last_activity := 0 }),
                ("cl", { ctype := "unknown", authenticated := true, last_activity := 0 })],
    mt5_connection := some "ea",
    command_queue := [itemFix],
    response_cache := [], auth_tokens := [], closedSockets := [] }

/-- A server with authentication enabled, one unauthenticated client `c1`
and one valid token `tok`. -/
def stAuth : ServerState :=
  { auth_enabled := true,
    clients := [("c1", { ctype := "unknown", authenticated := false, last_activity := 0 })],
    mt5_connection := none, command_queue := [], response_cache := [],
    auth_tokens := [("tok", { permissions := ["all"], created_at := "t" })],
    closedSockets := [] }

/-- An upstream reply as the source expects it: `command` plus
`responseToId` correlating to `r1`. -/
def replyFix : Jobj :=
  [("command", .jstr "response"), ("responseToId", .jstr "r1"), ("status", .jstr "ok")]

/-! ### Claim C1 -/

/-- Claim C1, counterexample: the upstream-classified connection delivers a
JSON object containing `r1` both as `requestId` (the spec's correlation
field) and as `responseToId`, while the command `r1` is pending and
authentication is disabled; because the object carries no `command` key,
nothing is stored in the response cache (and nothing is forwarded), so the
claim's "any JSON object containing R as its correlated request identifier
is stored under R" is false on the code. -/
theorem c1_spec_shape_reply_not_cached :
    (processMessage stFix "ea"
      [("requestId", Jval.jstr "r1"), ("responseToId", Jval.jstr "r1"),
       ("status", Jval.jstr "ok")] "g" "t" 5).1.response_cache = []
    ∧ (processMessage stFix "ea"
      [("requestId", Jval.jstr "r1"), ("responseToId", Jval.jstr "r1"),
       ("status", Jval.jstr "ok")] "g" "t" 5).2 = [] := by
  decide

/-- Claim C1, amended: when the upstream-classified connection passes the
authentication gate and delivers a JSON object carrying a `command` field
and carrying R in its `responseToId` field, that object is stored in the
response cache under R, and the dispatcher's waiting loop then forwards it
verbatim (the same JSON object) to the originating client of the pending
command with request identifier R. -/
theorem c1_upstream_reply_cached_and_forwarded (st : ServerState) (ea : String)
    (c : ClientInfo) (data : Jobj) (r : String) (g iso : String) (now : Nat)
    (st2 : ServerState) (item : QueuedCommand) (m nowIso excText : String)
    (hc : st.clients.lookup ea = some c)
    (htype : c.ctype = "mt5_ea")
    (hauth : isClientAuthenticated st ea = true)
    (hid : jget data "identity" ≠ some (.jstr "MT5_EA"))
    (hcmd : (jget data "command").isSome = true)
    (hrto : jget data "responseToId" = some (.jstr r))
    (hlink : st2.mt5_connection = some m)
    (hopen : upstreamSendFails st2 = false)
    (horig : (st2.clients.lookup item.client_id).isSome = true)
    (hrid : item.request_id = .jstr r) :
    (processMessage st ea data g iso now).1.response_cache
        = dictSet st.response_cache (.jstr r) { data := data, timestamp := now }
    ∧ (processMessage st ea data g iso now).2 = []
    ∧ (executeCommand st2 item
        [dictSet st.response_cache (.jstr r) { data := data, timestamp := now }]
        nowIso excText).sends = [(item.client_id, data)] := by
  rw [processMessage_cachesReply st ea c data (.jstr r) g iso now hc htype hauth hid
    hcmd hrto]
  refine ⟨rfl, rfl, ?_⟩
  unfold executeCommand
  rw [hlink]
  simp only [hopen, Bool.false_eq_true, if_false]
  rw [hrid, waitForReply_found _ _ _ _ { data := data, timestamp := now }
    (dictSet_lookup_self _ _ _)]
  unfold sendTo
  rw [horig]
  simp

/-- Claim C1, witness: at the fixture state, caching the upstream reply and
running the dispatcher poll forwards the reply object verbatim to `cl`. -/
theorem c1_witness :
    (executeCommand stFix itemFix
      [dictSet stFix.response_cache (Jval.jstr "r1") { data := replyFix, timestamp := 5 }]
      "t2" "e").sends = [("cl", replyFix)] := by
  have h := c1_upstream_reply_cached_and_forwarded stFix "ea"
    { ctype := "mt5_ea", authenticated := false, last_activity := 0 } replyFix "r1"
    "g" "t" 5 stFix itemFix "ea" "t2" "e" (by decide) (by decide) (by decide)
    (by decide) (by decide) (by decide) (by decide) (by decide) (by decide) (by decide)
  exact h.2.2

/-! ### Claim C2 -/

/-- Claim C2 (code bug): tearing down the upstream connection's handler
closes the socket and removes the registry entry but leaves
`mt5_connection` pointing at the dead socket, so a command executed
afterwards is not rejected with the upstream-absent error: the write is
attempted and fails, and the client gets the generic execution error
instead. -/
theorem c2_teardown_leaves_stale_upstream_link :
    (handleClientTeardown stFix "ea").mt5_connection = some "ea"
    ∧ (executeCommand (handleClientTeardown stFix "ea") itemFix [] "t0" "Broken pipe").sends
        = [("cl", execErrorReply (.jstr "r1") "Broken pipe")]
    ∧ execErrorReply (.jstr "r1") "Broken pipe" ≠ upstreamAbsentError (.jstr "r1") := by
  decide

/-! ### Claim C3 -/

/-- Claim C3 (confirmed): with authentication enabled, an unauthenticated
connection sending exactly `\x7b"auth": T\x7d` becomes authenticated and
receives the `authenticated` reply when T is in the Auth Store; for any
string not in the store it receives the `Authentication failed` error and
its flag stays false (the state is unchanged). -/
theorem c3_auth_token_outcomes (st : ServerState) (cid : String) (c : ClientInfo)
    (t g iso : String) (now : Nat)
    (hon : st.auth_enabled = true)
    (hc : st.clients.lookup cid = some c)
    (hflag : c.authenticated = false) :
    ((st.auth_tokens.lookup t).isSome = true →
      processMessage st cid [("auth", .jstr t)] g iso now =
        ({ st with clients :=
            updateClient st.clients cid (fun x => { x with authenticated := true }) },
         [(cid, authSuccessMsg)]))
    ∧ (st.auth_tokens.lookup t = none →
      processMessage st cid [("auth", .jstr t)] g iso now = (st, [(cid, authFailedMsg)])) := by
  have hauthF : isClientAuthenticated st cid = false := by
    unfold isClientAuthenticated
    rw [hon, hc]
    simpa using hflag
  have h1 : (jget [("auth", Jval.jstr t)] "identity" == some (Jval.jstr "MT5_EA")) = false := rfl
  have h2 : jget [("auth", Jval.jstr t)] "auth" = some (.jstr t) := rfl
  unfold processMessage
  rw [h1]
  simp only [Bool.false_and, Bool.false_eq_true, if_false, h2, Option.isSome_some,
    hauthF, Bool.not_false, Bool.true_and, if_true]
  unfold authenticateClient
  simp only [Option.getD_some]
  have hne : (!st.auth_enabled) = false := by rw [hon]; rfl
  rw [hne]
  simp only [Bool.false_eq_true, if_false]
  constructor
  · intro hv
    rw [if_pos hv, hc]
    simp only [if_true]
    unfold sendTo
    rw [updateClient_lookup, hc]
    simp
  · intro hnone
    rw [hnone]
    simp only [Option.isSome_none, Bool.false_eq_true, if_false]
    unfold sendTo
    rw [hc]
    simp

/-- Claim C3, witness: at the fixture state, the valid token authenticates. -/
theorem c3_witness :
    (processMessage stAuth "c1" [("auth", Jval.jstr "tok")] "g" "t" 0).2
      = [("c1", authSuccessMsg)] := by
  have h := (c3_auth_token_outcomes stAuth "c1"
    { ctype := "unknown", authenticated := false, last_activity := 0 }
    "tok" "g" "t" 0 (by decide) (by decide) (by decide)).1 (by decide)
  rw [h]

/-! ### Claim C4 -/

/-- Claim C4 (confirmed): with authentication enabled, a decodable message
from an unauthenticated, non-upstream connection that is neither an
upstream identity declaration nor an auth attempt draws the
`Not authenticated` error reply and leaves the whole state — in particular
the command queue — unchanged. -/
theorem c4_unauthenticated_command_rejected (st : ServerState) (cid : String)
    (c : ClientInfo) (data : Jobj) (g iso : String) (now : Nat)
    (hon : st.auth_enabled = true)
    (hc : st.clients.lookup cid = some c)
    (hflag : c.authenticated = false)
    (_htype : c.ctype ≠ "mt5_ea")
    (hid : jget data "identity" ≠ some (.jstr "MT5_EA"))
    (hnoauth : jget data "auth" = none) :
    processMessage st cid data g iso now = (st, [(cid, notAuthMsg)]) := by
  have hid' : (jget data "identity" == some (Jval.jstr "MT5_EA")) = false :=
    beq_false_of_ne hid
  have hauth : isClientAuthenticated st cid = false := by
    unfold isClientAuthenticated
    rw [hon, hc]
    simpa using hflag
  unfold processMessage
  rw [hid']
  simp only [Bool.false_and, Bool.false_eq_true, if_false, hnoauth, Option.isSome_none,
    Bool.false_and, hauth, Bool.not_false, if_true, if_false]
  unfold sendTo
  rw [hc]
  simp

/-- Claim C4, witness: at the fixture state, a bare command from the
unauthenticated client is answered with the error and nothing is queued. -/
theorem c4_witness :
    processMessage stAuth "c1" [("command", Jval.jstr "get_price")] "g" "t" 0
      = (stAuth, [("c1", notAuthMsg)]) := by
  exact c4_unauthenticated_command_rejected stAuth "c1"
    { ctype := "unknown", authenticated := false, last_activity := 0 }
    [("command", Jval.jstr "get_price")] "g" "t" 0
    (by decide) (by decide) (by decide) (by decide) (by decide) (by decide)

/-! ### Claim C5 -/

/-- Claim C5 (confirmed): a command executed while no upstream link is set
draws exactly the error reply carrying its requestId and the message
`MetaTrader EA not connected`, immediately (zero polls of the 30 s waiting
loop), with no bytes written toward any upstream. -/
theorem c5_upstream_absent_immediate_error (st : ServerState) (item : QueuedCommand)
    (polls : List Cache) (nowIso excText : String)
    (habs : st.mt5_connection = none)
    (horig : (st.clients.lookup item.client_id).isSome = true) :
    executeCommand st item polls nowIso excText =
      { sends := [(item.client_id, upstreamAbsentError item.request_id)],
        upstreamWrites := [], pollsUsed := 0, cacheAfter := none }
    ∧ jget (upstreamAbsentError item.request_id) "requestId" = some item.request_id
    ∧ jget (upstreamAbsentError item.request_id) "message"
        = some (.jstr "MetaTrader EA not connected") := by
  refine ⟨?_, rfl, rfl⟩
  unfold executeCommand
  rw [habs]
  unfold sendTo
  rw [horig]
  simp

/-- Claim C5, witness: at the fixture state with the link empty, the
command is rejected immediately even though a reply sits in a poll. -/
theorem c5_witness :
    executeCommand { stFix with mt5_connection := none } itemFix [] "t0" "e"
      = { sends := [("cl", upstreamAbsentError (Jval.jstr "r1"))],
          upstreamWrites := [], pollsUsed := 0, cacheAfter := none } := by
  have h := c5_upstream_absent_immediate_error { stFix with mt5_connection := none }
    itemFix [] "t0" "e" (by decide) (by decide)
  exact h.1

/-! ### Claim C6 -/

/-- Claim C6 (confirmed): a dispatched command whose correlated reply is
absent from the cache at every poll within the deadline draws exactly one
timeout error reply carrying its requestId; the dispatcher step has already
freed the queue slot for the next command; and a reply for that requestId
arriving later is still written into the cache by the upstream read path
while nothing is forwarded to the waiting client (the late put sends no
message at all). -/
theorem c6_timeout_once_and_late_reply_shelved (st : ServerState)
    (item : QueuedCommand) (polls : List Cache) (m : String)
    (rest : List QueuedCommand) (nowIso excText : String)
    (stL : ServerState) (ea : String) (cL : ClientInfo) (lateData : Jobj)
    (g2 iso2 : String) (now2 : Nat)
    (hlink : st.mt5_connection = some m)
    (hopen : upstreamSendFails st = false)
    (horig : (st.clients.lookup item.client_id).isSome = true)
    (hqueue : st.command_queue = item :: rest)
    (hmiss : ∀ c ∈ polls, c.lookup item.request_id = none)
    (hcL : stL.clients.lookup ea = some cL)
    (htypeL : cL.ctype = "mt5_ea")
    (hauthL : isClientAuthenticated stL ea = true)
    (hidL : jget lateData "identity" ≠ some (.jstr "MT5_EA"))
    (hcmdL : (jget lateData "command").isSome = true)
    (hrtoL : jget lateData "responseToId" = some item.request_id) :
    (executeCommand st item polls nowIso excText).sends
        = [(item.client_id, timeoutReply item.request_id)]
    ∧ (processQueueStep st polls nowIso excText).1.command_queue = rest
    ∧ (processMessage stL ea lateData g2 iso2 now2).1.response_cache
        = dictSet stL.response_cache item.request_id { data := lateData, timestamp := now2 }
    ∧ (processMessage stL ea lateData g2 iso2 now2).2 = [] := by
  rw [processMessage_cachesReply stL ea cL lateData item.request_id g2 iso2 now2
    hcL htypeL hauthL hidL hcmdL hrtoL]
  refine ⟨?_, ?_, rfl, rfl⟩
  · unfold executeCommand
    rw [hlink]
    simp only [hopen, Bool.false_eq_true, if_false]
    rw [waitForReply_deadline item.request_id polls 0 hmiss]
    unfold sendTo
    rw [horig]
    simp
  · unfold processQueueStep
    rw [hqueue]

/-- Claim C6, witness: one empty poll, then the timeout error to `cl`. -/
theorem c6_witness :
    (executeCommand stFix itemFix [[]] "t0" "e").sends
      = [("cl", timeoutReply (Jval.jstr "r1"))] := by
  have h := c6_timeout_once_and_late_reply_shelved stFix itemFix [[]] "ea" [] "t0" "e"
    stFix "ea" { ctype := "mt5_ea", authenticated := false, last_activity := 0 }
    replyFix "g" "t" 50 (by decide) (by decide) (by decide) (by decide) (by decide)
    (by decide) (by decide) (by decide) (by decide) (by decide) (by decide)
  exact h.1

/-! ### Claim C7 -/

/-- Claim C7, counterexample: the configuration file exists but configures
no tokens; the store is loaded empty and no bootstrap token is generated or
persisted, so the claim's "if no auth tokens are configured, the store
generates exactly one token" is false on the code. -/
theorem c7_present_empty_config_no_token :
    (loadAuthTokens (.present (some [])) "gen" "t0").1 = []
    ∧ loadAuthTokens (.present (some [])) "gen" "t0" = ([], .present (some [])) := by
  decide

/-- Claim C7, amended: at startup, if the configuration file is absent, the
Auth Store generates exactly one token granting the `all` permission and
persists it back to the configuration; the resulting store is non-empty and
that token validates (its lookup succeeds). -/
theorem c7_bootstrap_only_when_config_absent (g iso : String) :
    loadAuthTokens .absent g iso
      = ([(g, { permissions := ["all"], created_at := iso })], .present (some [(g, "all")]))
    ∧ ((loadAuthTokens .absent g iso).1.lookup g).isSome = true
    ∧ (loadAuthTokens .absent g iso).1.length = 1 := by
  refine ⟨rfl, ?_, rfl⟩
  show (List.lookup g [(g, _)]).isSome = true
  rw [lookupCons, LawfulBEq.rfl, Bool.cond_true]
  rfl

/-! ### Claim C8 -/

/-- Claim C8 (confirmed): for every cache state with distinct keys and
every current time, one sweep removes exactly the entries whose age exceeds
the 10-minute horizon and leaves every younger entry unchanged — the swept
cache is the filter keeping entries aged at most the horizon. -/
theorem c8_sweep_removes_exactly_expired (now : Nat) (c : Cache)
    (hnd : (c.map Prod.fst).Nodup) :
    cleanExpiredCache now c
      = c.filter (fun e => now - e.2.timestamp ≤ cacheExpirySeconds) := by
  unfold cleanExpiredCache
  rw [foldl_dictDel_eq_filter]
  apply List.filter_congr
  intro e he
  by_cases hex : cacheExpirySeconds < now - e.2.timestamp
  · have hmem : ((c.filter (fun e2 => cacheExpirySeconds < now - e2.2.timestamp)).map
        (fun e2 => e2.1)).any (fun k => e.1 == k) = true := by
      refine List.any_eq_true.mpr ⟨e.1, ?_, LawfulBEq.rfl⟩
      exact List.mem_map_of_mem _ (List.mem_filter.mpr ⟨he, by simpa using hex⟩)
    rw [hmem]
    have hng : ¬ (now - e.2.timestamp ≤ cacheExpirySeconds) := Nat.not_le.mpr hex
    simp [hng]
  · have hle : now - e.2.timestamp ≤ cacheExpirySeconds := Nat.not_lt.mp hex
    have hmem : ((c.filter (fun e2 => cacheExpirySeconds < now - e2.2.timestamp)).map
        (fun e2 => e2.1)).any (fun k => e.1 == k) = false := by
      rw [Bool.eq_false_iff]
      intro hany
      obtain ⟨k, hk, hbeq⟩ := List.any_eq_true.mp hany
      obtain ⟨e2, he2, rfl⟩ := List.mem_map.mp hk
      obtain ⟨he2c, he2x⟩ := List.mem_filter.mp he2
      have he12 : e = e2 :=
        eq_of_fst_eq_of_nodupKeys hnd he he2c (eq_of_beq hbeq)
      rw [← he12] at he2x
      exact hex (by simpa using he2x)
    rw [hmem]
    simp [hle]

/-- Claim C8, witness: at time 700, an entry written at 0 (age 700) is
swept and an entry written at 500 (age 200) is kept. -/
theorem c8_witness :
    cleanExpiredCache 700
      [(Jval.jstr "a", { data := [], timestamp := 0 }),
       (Jval.jstr "b", { data := [], timestamp := 500 })]
      = [(Jval.jstr "a", { data := [], timestamp := 0 }),
         (Jval.jstr "b", { data := [], timestamp := 500 })].filter
          (fun e => 700 - e.2.timestamp ≤ cacheExpirySeconds) := by
  exact c8_sweep_removes_exactly_expired 700
    [(Jval.jstr "a", { data := [], timestamp := 0 }),
     (Jval.jstr "b", { data := [], timestamp := 500 })] (by decide)

/-! ### Claim C9 -/

/-- Claim C9, counterexample: a message from the unauthenticated client
that carries a valid auth token but also the upstream identity marker is
handled by the identity branch: the reply is the `connected` acknowledgment
rather than an authentication outcome, and the connection's authenticated
flag stays false — so "the server performs only the authentication
handshake and replies with its outcome" is false on the code. -/
theorem c9_identity_marker_preempts_auth :
    (processMessage stAuth "c1"
      [("identity", Jval.jstr "MT5_EA"), ("auth", Jval.jstr "tok")] "g" "t" 0).2
      = [("c1", connectedAck "t")]
    ∧ ((processMessage stAuth "c1"
        [("identity", Jval.jstr "MT5_EA"), ("auth", Jval.jstr "tok")] "g" "t" 0).1.clients.lookup
          "c1").map (fun x => x.authenticated) = some false := by
  decide

/-- Claim C9, amended: for every message from a not-yet-authenticated
connection that carries a string auth token and does not declare the
upstream identity, the server performs only the authentication handshake
and replies with its outcome (success exactly when the token is in the
store); no command in the same message is processed, nothing is enqueued,
the response cache and the upstream link are untouched. -/
theorem c9_auth_handshake_only (st : ServerState) (cid : String) (c : ClientInfo)
    (data : Jobj) (tok g iso : String) (now : Nat)
    (hc : st.clients.lookup cid = some c)
    (hnauth : isClientAuthenticated st cid = false)
    (hid : jget data "identity" ≠ some (.jstr "MT5_EA"))
    (hatok : jget data "auth" = some (.jstr tok)) :
    (processMessage st cid data g iso now).2
        = [(cid, if (st.auth_tokens.lookup tok).isSome = true
                 then authSuccessMsg else authFailedMsg)]
    ∧ (processMessage st cid data g iso now).1.command_queue = st.command_queue
    ∧ (processMessage st cid data g iso now).1.response_cache = st.response_cache
    ∧ (processMessage st cid data g iso now).1.mt5_connection = st.mt5_connection := by
  have hid' : (jget data "identity" == some (Jval.jstr "MT5_EA")) = false :=
    beq_false_of_ne hid
  have hon : st.auth_enabled = true := by
    cases hae : st.auth_enabled with
    | true => rfl
    | false =>
        exfalso
        unfold isClientAuthenticated at hnauth
        rw [hae] at hnauth
        simp at hnauth
  have hne : (!st.auth_enabled) = false := by rw [hon]; rfl
  unfold processMessage
  rw [hid']
  simp only [Bool.false_and, Bool.false_eq_true, if_false, hatok, Option.isSome_some,
    hnauth, Bool.not_false, Bool.true_and, if_true]
  unfold authenticateClient
  simp only [Option.getD_some, hne, Bool.false_eq_true, if_false]
  by_cases hl : (st.auth_tokens.lookup tok).isSome = true
  · rw [if_pos hl, hc]
    simp only [if_true]
    unfold sendTo
    rw [updateClient_lookup, hc]
    simp [hl]
  · have hl' : st.auth_tokens.lookup tok = none := by
      cases hll : st.auth_tokens.lookup tok with
      | none => rfl
      | some x => rw [hll] at hl; simp at hl
    rw [hl']
    simp only [Option.isSome_none, Bool.false_eq_true, if_false]
    unfold sendTo
    rw [hc]
    simp [hl]

/-- Claim C9, witness: a message carrying both the valid token and a
command draws only the authentication reply and queues nothing. -/
theorem c9_witness :
    (processMessage stAuth "c1"
      [("auth", Jval.jstr "tok"), ("command", Jval.jstr "get_price")] "g" "t" 0).2
      = [("c1", if (stAuth.auth_tokens.lookup "tok").isSome = true
                then authSuccessMsg else authFailedMsg)] := by
  have h := c9_auth_handshake_only stAuth "c1"
    { ctype := "unknown", authenticated := false, last_activity := 0 }
    [("auth", Jval.jstr "tok"), ("command", Jval.jstr "get_price")] "tok" "g" "t" 0
    (by decide) (by decide) (by decide) (by decide)
  exact h.1

/-! ### Claim C10 -/

/-- A client with a stale sync callback left from an earlier synchronous
call (the source never removes the sync callback on success). -/
def staleClient : ClientState :=
  { callbacks := [("old", CB.sync)], last_response := none, event_set := false }

/-- Claim C10, counterexample: with the sync callback still registered for
an earlier requestId `old`, a late reply for `old` arriving before the new
command's acknowledgment is returned by the new synchronous call, although
its requestId differs from the generated one — so "the call returns the
first server message whose requestId equals the generated request
identifier" is false on the code. -/
theorem c10_stale_sync_callback_returns_old_reply :
    sendCommandSync staleClient "new"
      [[("requestId", .jstr "old"), ("status", .jstr "ok")],
       [("status", .jstr "queued"), ("requestId", .jstr "new")]]
      = some [("requestId", .jstr "old"), ("status", .jstr "ok")]
    ∧ matchesRid "new" [("requestId", .jstr "old"), ("status", .jstr "ok")] = false := by
  decide

/-- Claim C10, amended: provided no sync callback from an earlier call is
still registered, a synchronous `send_command` returns the first server
message whose requestId equals the freshly generated identifier; since the
server's immediate queued acknowledgment carries that requestId, a
successful synchronous call returns the queued acknowledgment (status
`queued`) rather than the later terminal reply. -/
theorem c10_sync_call_returns_first_match (cs0 : ClientState) (rid : String)
    (msgs : List Jobj) (cmd : Jval) (rest : List Jobj)
    (hrid : rid ≠ "")
    (hns : ∀ k, cs0.callbacks.lookup k ≠ some CB.sync) :
    sendCommandSync cs0 rid msgs = msgs.find? (matchesRid rid)
    ∧ sendCommandSync cs0 rid (queuedAck (.jstr rid) cmd :: rest)
        = some (queuedAck (.jstr rid) cmd)
    ∧ jget (queuedAck (.jstr rid) cmd) "status" = some (.jstr "queued") := by
  have hmain : ∀ ms : List Jobj, sendCommandSync cs0 rid ms = ms.find? (matchesRid rid) := by
    intro ms
    unfold sendCommandSync
    apply runUntilEvent_eq_find rid hrid
    · rfl
    · exact dictSet_lookup_self _ _ _
    · intro k hk
      rw [dictSet_lookup_ne _ hk]
      exact hns k
  have hack : matchesRid rid (queuedAck (.jstr rid) cmd) = true := by
    unfold matchesRid queuedAck jget
    simp [List.lookup]
  refine ⟨hmain msgs, ?_, rfl⟩
  rw [hmain (queuedAck (.jstr rid) cmd :: rest), List.find?_cons_of_pos rest hack]

/-- A freshly connected client: no callbacks registered yet. -/
def freshClient : ClientState :=
  { callbacks := [], last_response := none, event_set := false }

/-- Claim C10, witness: a fresh client's synchronous call returns the
queued acknowledgment. -/
theorem c10_witness :
    sendCommandSync freshClient "rid1" [queuedAck (Jval.jstr "rid1") (Jval.jstr "get_price")]
      = some (queuedAck (Jval.jstr "rid1") (Jval.jstr "get_price")) := by
  have h := c10_sync_call_returns_first_match freshClient "rid1" []
    (Jval.jstr "get_price") [] (by decide) (fun k hk => Option.noConfusion hk)
  exact h.2.1
